import Mathlib

/-
Verification of the adjacency-and-filter extraction pipeline of
`pdtb2_functions.py` (functions `adjacency_check` and `connective_initial`).

The embedding models a corpus record (`Datum`) as a fixed structure holding
exactly the fields and method results these two functions read.  Span lists
are lists of integer pairs; Python's `max`/`min` over an empty sequence and
`re.search` applied to `None` are modelled as errors in an `Except` monad.
-/

namespace Pdtb2

/-- Runtime failures the pipeline can raise: `emptySpanList` models Python's
`ValueError` from `max`/`min` over an empty sequence (the spec's
`InvalidRecordError`), `typeError` models Python's `TypeError` from calling
`re.search` on a missing (`None`) string. -/
inductive PyError where
  | emptySpanList
  | typeError
deriving DecidableEq, Repr

/-- One corpus record, with the fields and method results read by
`adjacency_check` and `connective_initial`.  `arg1_precedes_arg2` stores the
result of the record method of the same name; `conn_str` stores the result of
`conn_str(distinguish_implicit=False)`.  Optional string fields are `none`
when the corpus cell is absent (Python `None`). -/
structure Datum where
  Relation : String
  arg1_precedes_arg2 : Bool
  Arg1_SpanList : List (Int × Int)
  Arg2_SpanList : List (Int × Int)
  Connective_SpanList : List (Int × Int)
  Sup1_RawText : Option String
  Sup2_RawText : Option String
  ConnHeadSemClass1 : Option String
  ConnHead : Option String
  Connective_RawText : Option String
  Conn2 : Option String
  Section : String
  FileNumber : String
  Arg1_RawText : Option String
  Arg2_RawText : Option String
  conn_str : Option String
deriving DecidableEq, Repr

/-- Python's `[x for span in spanlist for x in span]`: every span contributes
both of its endpoints, in order. -/
def flattenSpans (spans : List (Int × Int)) : List Int :=
  spans.flatMap (fun s => [s.1, s.2])

/-- Python truthiness of an optional string: `None` and the empty string are
falsy, every other string is truthy. -/
def truthy : Option String → Bool
  | none => false
  | some s => !s.isEmpty

/-- Embedding of `adjacency_check` (pdtb2_functions.py, lines 126-144).
Returns `.error .emptySpanList` exactly where Python's `max`/`min` would
raise on an empty sequence. -/
def adjacency_check (datum : Datum) : Except PyError Bool :=
  if !datum.arg1_precedes_arg2 then
    .ok false
  else
    match (flattenSpans datum.Arg1_SpanList).max?,
          (flattenSpans datum.Arg2_SpanList).min? with
    | some arg1_finish, some arg2_start =>
      if datum.Relation = "Implicit" then
        .ok (decide (arg2_start - arg1_finish ≤ 3))
      else
        match (flattenSpans datum.Connective_SpanList).min?,
              (flattenSpans datum.Connective_SpanList).max? with
        | some conn_start, some conn_finish =>
          .ok (decide (conn_start - arg1_finish ≤ 3 ∧
                       arg2_start - conn_finish ≤ 3))
        | _, _ => .error .emptySpanList
    | _, _ => .error .emptySpanList

/-- Embedding of `sem_re.search(datum.ConnHeadSemClass1)`: the compiled
pattern is abstracted as a predicate on strings; applying it to an absent
(`None`) value raises a `TypeError`, as `re.search` does in Python. -/
def pySearch (semRe : String → Bool) : Option String → Except PyError Bool
  | none => .error .typeError
  | some s => .ok (semRe s)

/-- The connective-simplicity test of `connective_initial` (lines 171-172):
for Explicit the head equals the raw connective text, for Implicit there is
no secondary connective. -/
def connSimple (d : Datum) : Bool :=
  (decide (d.Relation = "Explicit") && decide (d.ConnHead = d.Connective_RawText)) ||
  (decide (d.Relation = "Implicit") && !truthy d.Conn2)

/-- The per-record filter chain of `connective_initial` (lines 159-172):
relation/supplementary-text gate, then the semantic-class search, then
`adjacency_check`, then connective simplicity.  Returns `.ok true` exactly
when the record is kept. -/
def isSimpleExtractable (semRe : String → Bool) (d : Datum) : Except PyError Bool :=
  if (d.Relation = "Implicit" ∨ d.Relation = "Explicit") ∧
     truthy d.Sup1_RawText = false ∧ truthy d.Sup2_RawText = false then
    match pySearch semRe d.ConnHeadSemClass1 with
    | .error e => .error e
    | .ok false => .ok false
    | .ok true =>
      match adjacency_check d with
      | .error e => .error e
      | .ok false => .ok false
      | .ok true => .ok (connSimple d)
  else
    .ok false

/-- The `"%s/%s" % (datum.Section, datum.FileNumber)` item id. -/
def itemId (d : Datum) : String :=
  d.Section ++ "/" ++ d.FileNumber

/-- The list stored under `keepers[itemId]` (lines 179-185). -/
def rowOf (d : Datum) : List (Option String) :=
  [some (itemId d), some d.Relation, d.ConnHeadSemClass1,
   d.Arg1_RawText, d.conn_str, d.Arg2_RawText]

/-- The `keepers` dictionary, modelled as an association list in insertion
order. -/
abbrev Keepers := List (String × List (Option String))

/-- Python dict assignment `keepers[k] = v`: overwrite in place when the key
is present, append otherwise. -/
def updateKeepers (ks : Keepers) (k : String) (v : List (Option String)) : Keepers :=
  match ks with
  | [] => [(k, v)]
  | p :: ps => if p.1 = k then (k, v) :: ps else p :: updateKeepers ps k v

/-- The accumulation loop of `connective_initial` over the record stream:
each record is run through the filter chain; keepers is updated on `.ok true`,
an error aborts the pass. -/
def extractLoop (semRe : String → Bool) : Keepers → List Datum → Except PyError Keepers
  | ks, [] => .ok ks
  | ks, d :: ds =>
    match isSimpleExtractable semRe d with
    | .error e => .error e
    | .ok true => extractLoop semRe (updateKeepers ks (itemId d) (rowOf d)) ds
    | .ok false => extractLoop semRe ks ds

/-- Full extraction pass of `connective_initial`, starting from an empty
keepers dictionary. -/
def extract (semRe : String → Bool) (records : List Datum) : Except PyError Keepers :=
  extractLoop semRe [] records

/-- Whether the filter chain keeps the record (no error, result true). -/
def qualifies (semRe : String → Bool) (d : Datum) : Bool :=
  match isSimpleExtractable semRe d with
  | .ok true => true
  | _ => false

/-- The row of the last record in the list that qualifies and carries the
given item id, if any (later records take precedence). -/
def lastQualRow (semRe : String → Bool) (k : String) : List Datum → Option (List (Option String))
  | [] => none
  | d :: ds =>
    match lastQualRow semRe k ds with
    | some r => some r
    | none =>
      if qualifies semRe d = true ∧ itemId d = k then some (rowOf d) else none

/-- All keeper entries carrying the given key, in order. -/
def filterKey (k : String) : Keepers → Keepers
  | [] => []
  | p :: ps => if p.1 = k then p :: filterKey k ps else filterKey k ps

/-! ### Helper lemmas about the keepers dictionary -/

lemma filterKey_updateKeepers_ne (k k' : String) (v : List (Option String))
    (hne : k' ≠ k) (ks : Keepers) :
    filterKey k' (updateKeepers ks k v) = filterKey k' ks := by
  have hkk : ¬ k = k' := fun h => hne h.symm
  induction ks with
  | nil => simp [updateKeepers, filterKey, hkk]
  | cons p ps ih =>
    by_cases hp : p.1 = k
    · have hp' : ¬ p.1 = k' := fun h => hkk (hp.symm.trans h)
      simp [updateKeepers, hp, filterKey, hkk, hp']
    · simp [updateKeepers, hp, filterKey, ih]

lemma filterKey_updateKeepers_self (k : String) (v : List (Option String)) :
    ∀ ks : Keepers,
      (filterKey k ks = [] ∨ ∃ r, filterKey k ks = [(k, r)]) →
      filterKey k (updateKeepers ks k v) = [(k, v)] := by
  intro ks
  induction ks with
  | nil => intro _; simp [updateKeepers, filterKey]
  | cons p ps ih =>
    intro hks
    by_cases hp : p.1 = k
    · rcases hks with h | ⟨r, h⟩
      · rw [filterKey, if_pos hp] at h
        cases h
      · rw [filterKey, if_pos hp] at h
        have htail : filterKey k ps = [] := by
          injection h with _ h2
        simp [updateKeepers, hp, filterKey, htail]
    · have hks' : filterKey k ps = [] ∨ ∃ r, filterKey k ps = [(k, r)] := by
        rw [filterKey, if_neg hp] at hks
        exact hks
      simp [updateKeepers, hp, filterKey, ih hks']

lemma extractLoop_filterKey (semRe : String → Bool) :
    ∀ (ds : List Datum) (ks res : Keepers),
      extractLoop semRe ks ds = .ok res →
      (∀ k, filterKey k ks = [] ∨ ∃ r, filterKey k ks = [(k, r)]) →
      ∀ k, filterKey k res =
        match lastQualRow semRe k ds with
        | some r => [(k, r)]
        | none => filterKey k ks := by
  intro ds
  induction ds with
  | nil =>
    intro ks res h _ k
    simp only [extractLoop, Except.ok.injEq] at h
    subst h
    simp [lastQualRow]
  | cons d ds ih =>
    intro ks res h hinv k
    simp only [extractLoop] at h
    cases hq : isSimpleExtractable semRe d with
    | error e =>
      rw [hq] at h
      cases h
    | ok b =>
      rw [hq] at h
      cases b with
      | false =>
        have hqual : qualifies semRe d = false := by simp [qualifies, hq]
        have hres := ih ks res h hinv k
        rw [lastQualRow, hres]
        cases hl : lastQualRow semRe k ds <;> simp [hl, hqual]
      | true =>
        have hqual : qualifies semRe d = true := by simp [qualifies, hq]
        have hinv' : ∀ k', filterKey k' (updateKeepers ks (itemId d) (rowOf d)) = [] ∨
            ∃ r, filterKey k' (updateKeepers ks (itemId d) (rowOf d)) = [(k', r)] := by
          intro k'
          by_cases hk : k' = itemId d
          · subst hk
            exact Or.inr ⟨rowOf d,
              filterKey_updateKeepers_self (itemId d) (rowOf d) ks (hinv (itemId d))⟩
          · rw [filterKey_updateKeepers_ne (itemId d) k' (rowOf d) hk ks]
            exact hinv k'
        have hres := ih _ res h hinv' k
        rw [lastQualRow]
        cases hl : lastQualRow semRe k ds with
        | some r =>
          rw [hl] at hres
          simpa using hres
        | none =>
          rw [hl] at hres
          by_cases hk : itemId d = k
          · rw [hres, hk, filterKey_updateKeepers_self k (rowOf d) ks (hinv k)]
            simp [hqual, hk]
          · rw [hres, filterKey_updateKeepers_ne (itemId d) k (rowOf d) (fun h' => hk h'.symm) ks]
            simp [hqual, hk]

/-! ### Concrete sample records used to witness the theorems -/

/-- An Implicit record whose arguments are separated by a gap of 2. -/
def impDatum : Datum :=
  { Relation := "Implicit"
    arg1_precedes_arg2 := true
    Arg1_SpanList := [(0, 10)]
    Arg2_SpanList := [(12, 20)]
    Connective_SpanList := []
    Sup1_RawText := none
    Sup2_RawText := none
    ConnHeadSemClass1 := some "Expansion.Conjunction"
    ConnHead := none
    Connective_RawText := none
    Conn2 := none
    Section := "00"
    FileNumber := "0001"
    Arg1_RawText := some "first arg"
    Arg2_RawText := some "second arg"
    conn_str := some "also" }

/-- An Explicit record with connective gaps of 1 and 1. -/
def expDatum : Datum :=
  { impDatum with
    Relation := "Explicit"
    Arg1_SpanList := [(0, 10)]
    Connective_SpanList := [(11, 15)]
    Arg2_SpanList := [(16, 30)]
    ConnHead := some "because"
    Connective_RawText := some "because"
    ConnHeadSemClass1 := some "Contingency.Cause.Reason"
    conn_str := some "because" }

/-- An Implicit record whose Arg2 starts inside Arg1 (overlapping spans),
with the empty connective list canonical for Implicit records. -/
def overlapImpDatum : Datum :=
  { impDatum with
    Arg1_SpanList := [(0, 10)]
    Arg2_SpanList := [(5, 8)]
    Connective_SpanList := [] }

/-- An Explicit record whose connective and Arg2 overlap Arg1. -/
def overlapExpDatum : Datum :=
  { expDatum with
    Arg1_SpanList := [(0, 10)]
    Connective_SpanList := [(4, 6)]
    Arg2_SpanList := [(5, 8)] }

/-- A record whose Arg1 does not precede Arg2, with every span list empty. -/
def noPrecDatum : Datum :=
  { impDatum with
    arg1_precedes_arg2 := false
    Arg1_SpanList := []
    Arg2_SpanList := []
    Connective_SpanList := [] }

lemma flattenSpans_nil_max : (flattenSpans []).max? = none := rfl

lemma flattenSpans_nil_min : (flattenSpans []).min? = none := rfl

/-! ### Claim theorems -/

/-- C1: for an Implicit record with `arg1_precedes_arg2()` true,
`adjacency_check` returns true iff `arg2Start - arg1Finish <= 3`, where
`arg1Finish` is the maximum offset over the spans of `Arg1_SpanList` and
`arg2Start` the minimum offset over the spans of `Arg2_SpanList`; the result
does not depend on `Connective_SpanList`. -/
theorem adjacency_check_implicit_iff (d : Datum) (c : List (Int × Int))
    (hprec : d.arg1_precedes_arg2 = true)
    (hrel : d.Relation = "Implicit")
    (a1f a2s : Int)
    (h1 : (flattenSpans d.Arg1_SpanList).max? = some a1f)
    (h2 : (flattenSpans d.Arg2_SpanList).min? = some a2s) :
    (adjacency_check d = .ok true ↔ a2s - a1f ≤ 3) ∧
    adjacency_check { d with Connective_SpanList := c } = adjacency_check d := by
  constructor
  · simp [adjacency_check, hprec, hrel, h1, h2]
  · show (if !d.arg1_precedes_arg2 then _ else _) = _
    simp [adjacency_check, hprec, hrel, h1, h2]

theorem adjacency_check_implicit_iff_witness :
    (adjacency_check impDatum = .ok true ↔ (12 : Int) - 10 ≤ 3) ∧
    adjacency_check { impDatum with Connective_SpanList := [(100, 200)] } =
      adjacency_check impDatum :=
  adjacency_check_implicit_iff impDatum [(100, 200)] rfl rfl 10 12 (by decide) (by decide)

/-- C2: for a non-Implicit record with `arg1_precedes_arg2()` true and all
three span lists non-empty, `adjacency_check` returns true iff both
`connStart - arg1Finish <= 3` and `arg2Start - connFinish <= 3`, where
`connStart` / `connFinish` are the minimum / maximum offsets over the spans of
`Connective_SpanList`. -/
theorem adjacency_check_explicit_iff (d : Datum)
    (hprec : d.arg1_precedes_arg2 = true)
    (hrel : d.Relation ≠ "Implicit")
    (a1f a2s cs cf : Int)
    (h1 : (flattenSpans d.Arg1_SpanList).max? = some a1f)
    (h2 : (flattenSpans d.Arg2_SpanList).min? = some a2s)
    (h3 : (flattenSpans d.Connective_SpanList).min? = some cs)
    (h4 : (flattenSpans d.Connective_SpanList).max? = some cf) :
    adjacency_check d = .ok true ↔ (cs - a1f ≤ 3 ∧ a2s - cf ≤ 3) := by
  simp [adjacency_check, hprec, hrel, h1, h2, h3, h4]

theorem adjacency_check_explicit_iff_witness :
    adjacency_check expDatum = .ok true ↔
      ((11 : Int) - 10 ≤ 3 ∧ (16 : Int) - 15 ≤ 3) :=
  adjacency_check_explicit_iff expDatum rfl (by decide) 10 16 11 15
    (by decide) (by decide) (by decide) (by decide)

/-- C3: whenever `arg1_precedes_arg2()` is false, `adjacency_check` returns
false immediately, regardless of the span lists, and no error is raised. -/
theorem adjacency_check_requires_precedence (d : Datum)
    (h : d.arg1_precedes_arg2 = false) :
    adjacency_check d = .ok false := by
  simp [adjacency_check, h]

theorem adjacency_check_requires_precedence_witness :
    adjacency_check noPrecDatum = .ok false :=
  adjacency_check_requires_precedence noPrecDatum rfl

/-- C4: with `arg1_precedes_arg2()` true, an empty `Arg1_SpanList` or
`Arg2_SpanList` (for any relation), or an empty `Connective_SpanList` for a
non-Implicit relation, makes `adjacency_check` raise the empty-sequence
error (the spec's `InvalidRecordError`) instead of returning a boolean. -/
theorem adjacency_check_empty_spanlist_raises (d : Datum)
    (hprec : d.arg1_precedes_arg2 = true)
    (h : d.Arg1_SpanList = [] ∨ d.Arg2_SpanList = [] ∨
         (d.Relation ≠ "Implicit" ∧ d.Connective_SpanList = [])) :
    adjacency_check d = .error .emptySpanList := by
  rcases h with h | h | ⟨hrel, h⟩
  · cases hB : (flattenSpans d.Arg2_SpanList).min? <;>
      simp [adjacency_check, hprec, h, hB, flattenSpans_nil_max]
  · cases hA : (flattenSpans d.Arg1_SpanList).max? <;>
      simp [adjacency_check, hprec, h, hA, flattenSpans_nil_min]
  · cases hA : (flattenSpans d.Arg1_SpanList).max? <;>
    cases hB : (flattenSpans d.Arg2_SpanList).min? <;>
      simp [adjacency_check, hprec, h, hrel, hA, hB,
            flattenSpans_nil_min, flattenSpans_nil_max]

theorem adjacency_check_empty_spanlist_raises_witness :
    adjacency_check { expDatum with Connective_SpanList := [] } =
      .error .emptySpanList :=
  adjacency_check_empty_spanlist_raises _ rfl
    (Or.inr (Or.inr ⟨by decide, rfl⟩))

/-- C8: the tolerance is an upper bound only.  With `arg1_precedes_arg2()`
true and non-empty required span lists, a negative gap still satisfies the
comparison: an Implicit record with `arg2Start < arg1Finish` (overlapping
arguments) yields true, and a non-Implicit record whose connective starts
before Arg1 ends and whose Arg2 starts before the connective ends also
yields true; no check requires the gaps to be non-negative. -/
theorem adjacency_check_overlap_still_true (d : Datum)
    (hprec : d.arg1_precedes_arg2 = true)
    (a1f a2s : Int)
    (h1 : (flattenSpans d.Arg1_SpanList).max? = some a1f)
    (h2 : (flattenSpans d.Arg2_SpanList).min? = some a2s) :
    (d.Relation = "Implicit" → a2s < a1f → adjacency_check d = .ok true) ∧
    (∀ cs cf : Int, d.Relation ≠ "Implicit" →
      (flattenSpans d.Connective_SpanList).min? = some cs →
      (flattenSpans d.Connective_SpanList).max? = some cf →
      cs < a1f → a2s < cf → adjacency_check d = .ok true) := by
  constructor
  · intro hrel hneg
    simp [adjacency_check, hprec, hrel, h1, h2]
    omega
  · intro cs cf hrel h3 h4 hg1 hg2
    simp [adjacency_check, hprec, hrel, h1, h2, h3, h4]
    omega

theorem adjacency_check_overlap_still_true_witness :
    adjacency_check overlapImpDatum = .ok true ∧
    adjacency_check overlapExpDatum = .ok true :=
  ⟨(adjacency_check_overlap_still_true overlapImpDatum rfl 10 5
      (by decide) (by decide)).1 rfl (by decide),
   (adjacency_check_overlap_still_true overlapExpDatum rfl 10 5
      (by decide) (by decide)).2 4 6 (by decide)
      (by decide) (by decide) (by decide) (by decide)⟩

/-- C9: `adjacency_check` depends only on `arg1_precedes_arg2()`, the
relation, the flattened maximum of `Arg1_SpanList`, the flattened minimum of
`Arg2_SpanList`, and the flattened minimum and maximum of
`Connective_SpanList`: two records agreeing on these yield the same result,
so interior spans that leave the extrema unchanged never matter. -/
theorem adjacency_check_depends_only_on_extrema (d1 d2 : Datum)
    (hp : d1.arg1_precedes_arg2 = d2.arg1_precedes_arg2)
    (hr : d1.Relation = d2.Relation)
    (h1 : (flattenSpans d1.Arg1_SpanList).max? = (flattenSpans d2.Arg1_SpanList).max?)
    (h2 : (flattenSpans d1.Arg2_SpanList).min? = (flattenSpans d2.Arg2_SpanList).min?)
    (h3 : (flattenSpans d1.Connective_SpanList).min? =
          (flattenSpans d2.Connective_SpanList).min?)
    (h4 : (flattenSpans d1.Connective_SpanList).max? =
          (flattenSpans d2.Connective_SpanList).max?) :
    adjacency_check d1 = adjacency_check d2 := by
  unfold adjacency_check
  rw [hp, hr, h1, h2, h3, h4]

/-- A variant of `impDatum` whose Arg1 is discontinuous but has the same
flattened extrema. -/
def splitArgDatum : Datum :=
  { impDatum with
    Arg1_SpanList := [(0, 4), (6, 10)]
    Arg2_SpanList := [(12, 15), (16, 20)] }

theorem adjacency_check_depends_only_on_extrema_witness :
    adjacency_check splitArgDatum = adjacency_check impDatum :=
  adjacency_check_depends_only_on_extrema splitArgDatum impDatum rfl rfl
    (by decide) (by decide) (by decide) (by decide)

/-- An Implicit record with no supplementary text and an absent
`ConnHeadSemClass1`. -/
def noSemClassDatum : Datum :=
  { impDatum with ConnHeadSemClass1 := none }

/-- C5 counterexample: on an Implicit record with no supplementary text and
an absent `ConnHeadSemClass1`, the filter chain raises the search type error
instead of returning false; the semantic-class check is not "treated as no
match". -/
theorem search_absent_semclass_cex :
    isSimpleExtractable (fun _ => true) noSemClassDatum = .error .typeError ∧
    isSimpleExtractable (fun _ => true) noSemClassDatum ≠ .ok false := by
  constructor
  · rfl
  · intro h
    rw [show isSimpleExtractable (fun _ => true) noSemClassDatum =
          Except.error PyError.typeError from rfl] at h
    exact Except.noConfusion h

/-- C5 amended: for a record with `Relation` in {Implicit, Explicit} and no
supplementary text, an absent `ConnHeadSemClass1` makes the semantic-class
search raise a type error (as Python's `re.search(None)` does), aborting the
pass, rather than failing softly as a non-match. -/
theorem search_absent_semclass_raises (semRe : String → Bool) (d : Datum)
    (hrel : d.Relation = "Implicit" ∨ d.Relation = "Explicit")
    (hs1 : truthy d.Sup1_RawText = false)
    (hs2 : truthy d.Sup2_RawText = false)
    (hc : d.ConnHeadSemClass1 = none) :
    isSimpleExtractable semRe d = .error .typeError := by
  unfold isSimpleExtractable
  rw [if_pos ⟨hrel, hs1, hs2⟩, hc]
  rfl

theorem search_absent_semclass_raises_witness :
    isSimpleExtractable (fun _ => false) noSemClassDatum = .error .typeError :=
  search_absent_semclass_raises (fun _ => false) noSemClassDatum
    (Or.inl rfl) rfl rfl rfl

/-- C6: a record with non-empty `Sup1_RawText` or `Sup2_RawText` fails the
filter chain and leaves the keepers accumulator untouched, whatever the
other fields are. -/
theorem sup_text_blocks_extraction (semRe : String → Bool) (d : Datum)
    (ks : Keepers) (ds : List Datum)
    (h : truthy d.Sup1_RawText = true ∨ truthy d.Sup2_RawText = true) :
    isSimpleExtractable semRe d = .ok false ∧
    extractLoop semRe ks (d :: ds) = extractLoop semRe ks ds := by
  have hcond : ¬ ((d.Relation = "Implicit" ∨ d.Relation = "Explicit") ∧
      truthy d.Sup1_RawText = false ∧ truthy d.Sup2_RawText = false) := by
    rcases h with h | h <;> simp [h]
  have hfail : isSimpleExtractable semRe d = .ok false := by
    unfold isSimpleExtractable
    rw [if_neg hcond]
  refine ⟨hfail, ?_⟩
  simp only [extractLoop, hfail]

/-- A record passing every other check but carrying supplementary text. -/
def supDatum : Datum :=
  { impDatum with Sup1_RawText := some "moreover" }

theorem sup_text_blocks_extraction_witness :
    isSimpleExtractable (fun _ => true) supDatum = .ok false ∧
    extractLoop (fun _ => true) [] [supDatum] =
      extractLoop (fun _ => true) [] [] :=
  sup_text_blocks_extraction (fun _ => true) supDatum [] [] (Or.inl rfl)

/-- C10: a record whose relation is neither Implicit nor Explicit never
reaches the semantic-class search: the filter chain returns false without
error for every pattern (so an absent `ConnHeadSemClass1` cannot abort the
pass), and the result does not depend on the pattern. -/
theorem other_relations_skip_search (semRe semRe2 : String → Bool) (d : Datum)
    (h1 : d.Relation ≠ "Implicit") (h2 : d.Relation ≠ "Explicit") :
    isSimpleExtractable semRe d = .ok false ∧
    isSimpleExtractable semRe2 d = isSimpleExtractable semRe d := by
  have key : ∀ f : String → Bool, isSimpleExtractable f d = .ok false := by
    intro f
    unfold isSimpleExtractable
    rw [if_neg]
    rintro ⟨hc, -, -⟩
    rcases hc with hc | hc
    · exact h1 hc
    · exact h2 hc
  exact ⟨key semRe, (key semRe2).trans (key semRe).symm⟩

/-- An EntRel record with an absent `ConnHeadSemClass1`. -/
def entRelDatum : Datum :=
  { impDatum with
    Relation := "EntRel"
    ConnHeadSemClass1 := none }

theorem other_relations_skip_search_witness :
    isSimpleExtractable (fun _ => true) entRelDatum = .ok false ∧
    isSimpleExtractable (fun _ => false) entRelDatum =
      isSimpleExtractable (fun _ => true) entRelDatum :=
  other_relations_skip_search (fun _ => true) (fun _ => false) entRelDatum
    (by decide) (by decide)

/-- C7: when the extraction pass completes, the keepers dictionary holds, for
every item id, exactly the entries dictated by the input stream: exactly one
entry when some qualifying record carries that id — and its row is that of
the qualifying record encountered latest in iteration order — and no entry
otherwise.  In particular two qualifying records with the same
`Section/FileNumber` leave one last-match-wins entry, and entries for
distinct item ids are never removed. -/
theorem extract_dedup_last_wins (semRe : String → Bool) (records : List Datum)
    (ks : Keepers) (h : extract semRe records = .ok ks) (k : String) :
    filterKey k ks =
      match lastQualRow semRe k records with
      | some r => [(k, r)]
      | none => [] := by
  have hchar := extractLoop_filterKey semRe records [] ks h
    (fun _ => Or.inl rfl) k
  rw [hchar]
  cases lastQualRow semRe k records <;> rfl

/-- A second qualifying record from the same corpus file as `impDatum`. -/
def impDatumLater : Datum :=
  { impDatum with
    Arg1_RawText := some "later first arg"
    Arg2_RawText := some "later second arg" }

theorem extract_dedup_last_wins_witness :
    filterKey "00/0001" [("00/0001", rowOf impDatumLater)] =
      match lastQualRow (fun _ => true) "00/0001" [impDatum, impDatumLater] with
      | some r => [("00/0001", r)]
      | none => [] :=
  extract_dedup_last_wins (fun _ => true) [impDatum, impDatumLater]
    [("00/0001", rowOf impDatumLater)] (by rfl) "00/0001"

end Pdtb2
